import Mathlib

/-!
Shallow embedding of the signal-detection and forward-performance pipeline of
`src/analysis/metrics.py`.

An OHLCV table is a `List` of rows in index order (the pandas `DatetimeIndex`
entry of a row is its `date` field, encoded as an integer day ordinal).
A pandas column that can hold `NaN`/`NaT` is modelled as an `Option`-valued
field: `none` is `NaN`/`NaT`/`None`, `some q` a finite value.  Floating-point
numbers are modelled as rationals; the one place where the source manipulates
non-finite values (`div` followed by `replace([inf, -inf], nan)`) is modelled
explicitly through the `FV` type below.
-/

/-- One raw OHLCV row.  `date` is the row's index entry as a day ordinal. -/
structure Row where
  date : ℤ
  openP : ℚ
  high : ℚ
  low : ℚ
  close : ℚ
  volume : ℚ
deriving DecidableEq

/-- A row together with the derived columns the pipeline appends.  Columns not
yet computed hold their pandas initial value (`NaN`/`False`), i.e. `none` /
`false`. -/
structure ARow extends Row where
  Volume_MA : Option ℚ := none
  Volume_Ratio : Option ℚ := none
  Price_Change_Pct : Option ℚ := none
  Is_Breakout : Bool := false
  Forward_Returns : Option ℚ := none
  Exit_Date : Option ℤ := none
  Exit_Price : Option ℚ := none
deriving DecidableEq

/-- Classification of a floating-point division result: `NaN`, `+inf`, `-inf`
or a finite value.  Used to model `Series.div` faithfully before the source's
`replace([np.inf, -np.inf], np.nan)` step. -/
inductive FV where
  | nan : FV
  | pinf : FV
  | ninf : FV
  | fin : ℚ → FV
deriving DecidableEq

/-- IEEE division of a finite float `x` by a finite float `m`:
`x / 0` is `NaN` when `x = 0` and a signed infinity otherwise. -/
def fdivFV (x m : ℚ) : FV :=
  if m = 0 then (if x = 0 then FV.nan else if 0 < x then FV.pinf else FV.ninf)
  else FV.fin (x / m)

/-- `.replace([np.inf, -np.inf], np.nan)` composed with the NaN-as-`none`
encoding: infinities and `NaN` both become `none`. -/
def replaceInfNan : FV → Option ℚ
  | FV.fin q => some q
  | _ => none

/-- Map over a list with the position of each element available, starting the
count at `i`; `mapFrom f 0` is the usual index-aware map. -/
def mapFrom (f : ℕ → α → β) : ℕ → List α → List β
  | _, [] => []
  | i, a :: as => f i a :: mapFrom f (i + 1) as

/-- `Series.rolling(window := w, min_periods := w).mean()` evaluated at row
`t`: the mean of the `w` values ending at `t` (rows `t-w+1 .. t`), `NaN` while
fewer than `w` observations exist. -/
def rolling_mean (vs : List ℚ) (w : ℕ) (t : ℕ) : Option ℚ :=
  if w ≤ t + 1 then some ((((vs.drop (t + 1 - w)).take w).sum) / (w : ℚ)) else none

/-- The `Volume_MA` column: the rolling mean shifted down by one row
(`.shift(1)`), so row `t` sees the mean of rows `t-w .. t-1` and row `0` is
`NaN`. -/
def volume_MA_col (vs : List ℚ) (w : ℕ) : ℕ → Option ℚ
  | 0 => none
  | t + 1 => rolling_mean vs w t

/-- `calculate_volume_metrics`: appends `Volume_MA` (trailing mean of the
previous `lookback_period` volumes) and `Volume_Ratio`
(`Volume / Volume_MA` with infinities coerced to `NaN`). -/
def calculate_volume_metrics (df : List ARow) (lookback_period : ℕ) : List ARow :=
  let vols := df.map (fun r => r.volume)
  mapFrom (fun t r =>
    let ma := volume_MA_col vols lookback_period t
    { r with
      Volume_MA := ma
      Volume_Ratio :=
        match ma with
        | none => none
        | some m => replaceInfNan (fdivFV r.volume m) }) 0 df

/-- `calculate_price_changes`: appends `Price_Change_Pct`
(`Close.pct_change() * 100`), `NaN` on the first row. -/
def calculate_price_changes (df : List ARow) : List ARow :=
  let closes := df.map (fun r => r.close)
  mapFrom (fun t r =>
    { r with
      Price_Change_Pct :=
        match t with
        | 0 => none
        | t' + 1 => some ((r.close - closes.getD t' 0) / closes.getD t' 0 * 100) }) 0 df

/-- A pandas comparison `series > thr` on a NaN-able column: `NaN` compares
`False`. -/
def optGT (o : Option ℚ) (thr : ℚ) : Bool :=
  match o with
  | none => false
  | some x => decide (thr < x)

/-- `identify_breakout_signals`: appends the boolean `Is_Breakout` column,
`(Volume_Ratio > 1 + volume_threshold) & (Price_Change_Pct > price_change_threshold)`. -/
def identify_breakout_signals (df : List ARow) (volume_threshold price_change_threshold : ℚ) :
    List ARow :=
  df.map (fun r =>
    { r with
      Is_Breakout := optGT r.Volume_Ratio (1 + volume_threshold) &&
        optGT r.Price_Change_Pct price_change_threshold })

/-- Reset the three forward-return columns to their initial `NaN`/`NaT`
values, as the source does before its loop.  Also used as the frame
projection: two rows with equal `clearFR`-images agree on every column except
the three forward-return ones. -/
def clearFR (r : ARow) : ARow :=
  { r with Forward_Returns := none, Exit_Date := none, Exit_Price := none }

/-- The update the loop body performs on a breakout row `e` whose exit row is
`x`: record exit date, exit price, and the forward return
`(exit - entry) / entry * 100`. -/
def writeFR (e x : ARow) : ARow :=
  { e with
    Exit_Date := some x.date
    Exit_Price := some x.close
    Forward_Returns := some ((x.close - e.close) / e.close * 100) }

/-- One iteration of the forward-return loop at breakout position `day`:
if the exit position `day + holding_period` is within bounds, store the exit
information on row `day`; otherwise leave the table unchanged. -/
def processDay (holding_period : ℕ) (df : List ARow) (day : ℕ) : List ARow :=
  match df[day]?, df[day + holding_period]? with
  | some e, some x => df.set day (writeFR e x)
  | _, _ => df

/-- Index positions of the rows flagged `Is_Breakout`
(`df[df['Is_Breakout']].index` as positional indices). -/
def breakoutIdxs (df : List ARow) : List ℕ :=
  (List.range df.length).filter (fun t => ((df[t]?).map ARow.Is_Breakout).getD false)

/-- `calculate_forward_returns`: initialise `Forward_Returns`/`Exit_Date`/
`Exit_Price` to `NaN`/`NaT`, then loop over the breakout rows writing each
row's exit information when the exit index is in bounds. -/
def calculate_forward_returns (df : List ARow) (holding_period : ℕ) : List ARow :=
  (breakoutIdxs df).foldl (processDay holding_period) (df.map clearFR)

/-- Round a rational to the nearest integer, ties to even — the rounding
CPython's fixed-point float formatting applies to the scaled value. -/
def roundHalfEven (q : ℚ) : ℤ :=
  let f := ⌊q⌋
  let frac := q - (f : ℚ)
  if frac < 1 / 2 then f
  else if 1 / 2 < frac then f + 1
  else if f % 2 = 0 then f else f + 1

/-- Render a natural number below 100 as exactly two decimal digits. -/
def twoDigits (n : ℕ) : String :=
  (if n < 10 then "0" else "") ++ toString n

/-- `format_with_sign` body without the trailing percent sign: CPython's
fixed-point rendering `f"{v:.2f}"` of a rational, i.e. the sign of `v`
followed by `|v|` rounded half-to-even at two decimals. -/
def formatFixed2 (q : ℚ) : String :=
  let n := (roundHalfEven (|q| * 100)).toNat
  (if q < 0 then "-" else "") ++ toString (n / 100) ++ "." ++ twoDigits (n % 100)

/-- `format_with_sign`: prefix a `+` on strictly positive values, then render
with two decimals and a percent sign. -/
def format_with_sign (value : ℚ) : String :=
  (if 0 < value then "+" else "") ++ formatFixed2 value ++ "%"

/-- The forward-return value of a row whose `Forward_Returns` is defined. -/
def frVal (r : ARow) : ℚ := r.Forward_Returns.getD 0

/-- `df[df['Is_Breakout']]` followed by
`dropna(subset=['Forward_Returns', 'Volume_Ratio', 'Price_Change_Pct'])`:
the rows the Summary Aggregator works on. -/
def breakout_data (df : List ARow) : List ARow :=
  (df.filter (fun r => r.Is_Breakout)).filter
    (fun r => r.Forward_Returns.isSome && r.Volume_Ratio.isSome && r.Price_Change_Pct.isSome)

/-- Forward returns of the winning trades (`Forward_Returns > 0`). -/
def winning_returns (df : List ARow) : List ℚ :=
  ((breakout_data df).filter (fun r => decide (0 < frVal r))).map frVal

/-- Forward returns of the losing trades (`Forward_Returns <= 0`). -/
def losing_returns (df : List ARow) : List ℚ :=
  ((breakout_data df).filter (fun r => decide (frVal r ≤ 0))).map frVal

/-- The source's `safe_mean`: the mean of a series, `0.0` when it is empty. -/
def safe_mean (l : List ℚ) : ℚ :=
  if l = [] then 0 else l.sum / (l.length : ℚ)

/-- Consecutive differences of a list, `Series.diff()` with the leading `NaN`
dropped. -/
def diffs : List ℤ → List ℤ
  | a :: b :: rest => (b - a) :: diffs (b :: rest)
  | _ => []

/-- `Series.max()` on a list of rationals (junk value `0` on the empty list,
which the source never hits). -/
def qmax : List ℚ → ℚ
  | [] => 0
  | x :: xs => xs.foldl max x

/-- `Series.min()` on a list of rationals. -/
def qmin : List ℚ → ℚ
  | [] => 0
  | x :: xs => xs.foldl min x

/-- Earliest of a list of dates (`index.min()`). -/
def zmin : List ℤ → ℤ
  | [] => 0
  | x :: xs => xs.foldl min x

/-- Latest of a list of dates (`index.max()`). -/
def zmax : List ℤ → ℤ
  | [] => 0
  | x :: xs => xs.foldl max x

/-- Python's `int()` on a finite float: truncation toward zero. -/
def pyInt (q : ℚ) : ℤ :=
  if q < 0 then -⌊-q⌋ else ⌊q⌋

/-- The exact mean calendar-day gap between consecutive qualifying signal
dates: `safe_mean` of `index.to_series().diff().dt.days` over
`breakout_data`. -/
def meanGapDays (df : List ARow) : ℚ :=
  safe_mean ((diffs ((breakout_data df).map (fun r => r.date))).map (fun z => (z : ℚ)))

/-- The fixed-shape record `generate_breakout_summary` returns.  Date fields
hold the day ordinal of the first/last signal (`None` in the degenerate
case); string rendering of dates is presentational and not modelled. -/
structure Summary where
  Total_Breakout_Days : String
  Average_Return : String
  Win_Rate : String
  Best_Trade : String
  Worst_Trade : String
  Avg_Win_Size : String
  Avg_Loss_Size : String
  Avg_Days_Between_Signals : String
  Avg_Volume_Ratio : String
  Max_Volume_Ratio : String
  Min_Volume_Ratio : String
  Avg_Price_Change : String
  Max_Price_Change : String
  Min_Price_Change : String
  First_Signal_Date : Option ℤ
  Last_Signal_Date : Option ℤ
deriving DecidableEq

/-- `generate_breakout_summary`: filter to flagged rows with all of
`Forward_Returns`, `Volume_Ratio`, `Price_Change_Pct` defined; return the
explicit placeholder record when that set is empty, otherwise the computed
statistics. -/
def generate_breakout_summary (df : List ARow) : Summary :=
  let bd := breakout_data df
  if bd.isEmpty then
    { Total_Breakout_Days := "0"
      Average_Return := "0.00%"
      Win_Rate := "0.00%"
      Best_Trade := "0.00%"
      Worst_Trade := "0.00%"
      Avg_Win_Size := "0.00%"
      Avg_Loss_Size := "0.00%"
      Avg_Days_Between_Signals := "N/A"
      Avg_Volume_Ratio := "0.00x"
      Max_Volume_Ratio := "0.00x"
      Min_Volume_Ratio := "0.00x"
      Avg_Price_Change := "0.00%"
      Max_Price_Change := "0.00%"
      Min_Price_Change := "0.00%"
      First_Signal_Date := none
      Last_Signal_Date := none }
  else
    let total := bd.length
    let frs := bd.map frVal
    let vrs := bd.map (fun r => r.Volume_Ratio.getD 0)
    let pcs := bd.map (fun r => r.Price_Change_Pct.getD 0)
    let dates := bd.map (fun r => r.date)
    { Total_Breakout_Days := toString total
      Average_Return := format_with_sign (safe_mean frs)
      Win_Rate := formatFixed2 (((winning_returns df).length : ℚ) / (total : ℚ) * 100) ++ "%"
      Best_Trade := format_with_sign (qmax frs)
      Worst_Trade := format_with_sign (qmin frs)
      Avg_Win_Size := format_with_sign (safe_mean (winning_returns df))
      Avg_Loss_Size := format_with_sign (safe_mean (losing_returns df))
      Avg_Days_Between_Signals :=
        if 1 < total then toString (pyInt (meanGapDays df)) else "N/A"
      Avg_Volume_Ratio := formatFixed2 (safe_mean vrs) ++ "x"
      Max_Volume_Ratio := formatFixed2 (qmax vrs) ++ "x"
      Min_Volume_Ratio := formatFixed2 (qmin vrs) ++ "x"
      Avg_Price_Change := format_with_sign (safe_mean pcs)
      Max_Price_Change := format_with_sign (qmax pcs)
      Min_Price_Change := format_with_sign (qmin pcs)
      First_Signal_Date := some (zmin dates)
      Last_Signal_Date := some (zmax dates) }

/-- `generate_signals_report`: the summary record together with the Signal
Report rows — flagged rows whose `Forward_Returns` is defined, in table
order.  The per-column display formatting of the report table is
presentational and not modelled; the rows themselves are kept whole. -/
def generate_signals_report (df : List ARow) : Summary × List ARow :=
  (generate_breakout_summary df,
    (df.filter (fun r => r.Is_Breakout)).filter (fun r => r.Forward_Returns.isSome))

/-- The four transformation stages composed in pipeline order. -/
def run_pipeline (df : List ARow) (lookback_period : ℕ)
    (volume_threshold price_change_threshold : ℚ) (holding_period : ℕ) : List ARow :=
  calculate_forward_returns
    (identify_breakout_signals
      (calculate_price_changes (calculate_volume_metrics df lookback_period))
      volume_threshold price_change_threshold)
    holding_period

/-- The net effect of the forward-return loop on row `t` of its working table
`d0`: when both row `t` and its exit row exist, the row with exit information
written, otherwise the row unchanged. -/
def frUpdate (holding_period : ℕ) (d0 : List ARow) (t : ℕ) : Option ARow :=
  match d0[t]?, d0[t + holding_period]? with
  | some e, some x => some (writeFR e x)
  | _, _ => d0[t]?

/-- Frame projection for the first stage: blank out the two columns
`calculate_volume_metrics` writes. -/
def eraseVolumeCols (r : ARow) : ARow :=
  { r with Volume_MA := none, Volume_Ratio := none }

/-- Frame projection for the second stage: blank out `Price_Change_Pct`. -/
def erasePriceCol (r : ARow) : ARow :=
  { r with Price_Change_Pct := none }

/-- Frame projection for the classifier stage: blank out `Is_Breakout`. -/
def eraseBreakoutCol (r : ARow) : ARow :=
  { r with Is_Breakout := false }

/-- Build a raw input row with the given date, close and volume (the unused
open/high/low columns are set to the close). -/
def mkRow (d : ℤ) (c v : ℚ) : ARow :=
  { date := d, openP := c, high := c, low := c, close := c, volume := v }

/-- Concrete five-row series: with `lookback = 1`, thresholds `2`, holding
period `1`, rows 1, 2 and 3 are qualifying signals, at dates 1, 2 and 4
(consecutive gaps 1 and 2 days, mean 3/2). -/
def cdf5 : List ARow :=
  [mkRow 0 100 100, mkRow 1 110 1000, mkRow 2 121 10000,
   mkRow 4 (1331 / 10) 100000, mkRow 5 1 1]

/-- Concrete series whose dates are strictly decreasing — a violation of the
sorted-ascending input precondition.  With `lookback = 1`, thresholds `2`,
holding period `1`, rows 1 and 2 are qualifying signals. -/
def badDf : List ARow :=
  [mkRow 10 100 100, mkRow 4 110 1000, mkRow 1 121 10000, mkRow 0 130 1]

/-- Two-row raw series used as a generic witness input. -/
def wdf2 : List ARow :=
  [mkRow 0 100 7, mkRow 1 105 9]

/-- A single already-annotated row representing a losing evaluated signal:
flagged, with defined ratio, price change and a negative forward return. -/
def losingRow : ARow :=
  { date := 3, openP := 50, high := 50, low := 50, close := 50, volume := 9
    Volume_MA := some 3, Volume_Ratio := some 3, Price_Change_Pct := some 4
    Is_Breakout := true, Forward_Returns := some (-5), Exit_Date := some 4
    Exit_Price := some 45 }

/-- An already-annotated breakout row used as a witness input for the
forward-return stage. -/
def brRow : ARow :=
  { date := 8, openP := 40, high := 40, low := 40, close := 40, volume := 6
    Volume_MA := some 2, Volume_Ratio := some 3, Price_Change_Pct := some 4
    Is_Breakout := true }

/-- Row 1 of `calculate_volume_metrics wdf2 1`, spelled out. -/
def w1 : ARow :=
  { date := 1, openP := 105, high := 105, low := 105, close := 105, volume := 9
    Volume_MA := some 7, Volume_Ratio := some (9 / 7) }

/-! Basic lemmas about `mapFrom`. -/

theorem mapFrom_length (f : ℕ → α → β) (i : ℕ) (l : List α) :
    (mapFrom f i l).length = l.length := by
  induction l generalizing i with
  | nil => rfl
  | cons a as ih => simp [mapFrom, ih]

theorem mapFrom_getElem? (f : ℕ → α → β) (i t : ℕ) (l : List α) :
    (mapFrom f i l)[t]? = (l[t]?).map (f (i + t)) := by
  induction l generalizing i t with
  | nil => simp [mapFrom]
  | cons a as ih =>
    cases t with
    | zero => simp [mapFrom]
    | succ t' =>
      simp only [mapFrom, List.getElem?_cons_succ, ih (i + 1) t']
      have : i + 1 + t' = i + (t' + 1) := by omega
      rw [this]

theorem map_mapFrom (f : ℕ → α → β) (g : β → γ) (i : ℕ) (l : List α) :
    (mapFrom f i l).map g = mapFrom (fun t a => g (f t a)) i l := by
  induction l generalizing i with
  | nil => rfl
  | cons a as ih => simp [mapFrom, ih]

theorem mapFrom_const (g : α → β) (i : ℕ) (l : List α) :
    mapFrom (fun _ a => g a) i l = l.map g := by
  induction l generalizing i with
  | nil => rfl
  | cons a as ih => simp [mapFrom, ih]

/-- The sum of the length-`n` slice of `vs` starting at `m`, written as a sum
of indexed entries. -/
theorem sum_drop_take (vs : List ℚ) (m n : ℕ) (h : m + n ≤ vs.length) :
    ((vs.drop m).take n).sum = ∑ i ∈ Finset.range n, vs.getD (m + i) 0 := by
  induction n with
  | zero => simp
  | succ n ih =>
    have hmn : m + n < vs.length := by omega
    have hdrop : (vs.drop m)[n]? = vs[m + n]? := List.getElem?_drop vs m n
    rw [List.take_succ, List.sum_append, ih (by omega), Finset.sum_range_succ]
    have : (vs.drop m)[n]? = some (vs.getD (m + n) 0) := by
      rw [hdrop, List.getElem?_eq_getElem hmn]
      simp [List.getD_eq_getElem?_getD, List.getElem?_eq_getElem hmn]
    rw [this]
    simp

/-! Characterization of the `Volume_MA` column. -/

theorem getD_set_ne (l : List α) (i j : ℕ) (a d : α) (h : i ≠ j) :
    (l.set i a).getD j d = l.getD j d := by
  simp [List.getD_eq_getElem?_getD, List.getElem?_set_ne h]

theorem volume_MA_col_lt (vs : List ℚ) (w t : ℕ) (ht : t < w) :
    volume_MA_col vs w t = none := by
  cases t with
  | zero => rfl
  | succ t' =>
    simp only [volume_MA_col, rolling_mean]
    rw [if_neg (by omega)]

theorem volume_MA_col_ge (vs : List ℚ) (w t : ℕ) (hw : 0 < w) (hwt : w ≤ t)
    (hlen : t ≤ vs.length) :
    volume_MA_col vs w t =
      some ((∑ i ∈ Finset.range w, vs.getD (t - w + i) 0) / (w : ℚ)) := by
  cases t with
  | zero => omega
  | succ t' =>
    simp only [volume_MA_col, rolling_mean]
    rw [if_pos (by omega)]
    rw [sum_drop_take vs (t' + 1 - w) w (by omega)]

theorem volume_MA_col_set (vs : List ℚ) (w t : ℕ) (x : ℚ) (hw : 0 < w)
    (hlen : t ≤ vs.length) :
    volume_MA_col (vs.set t x) w t = volume_MA_col vs w t := by
  rcases Nat.lt_or_ge t w with hlt | hge
  · rw [volume_MA_col_lt _ _ _ hlt, volume_MA_col_lt _ _ _ hlt]
  · rw [volume_MA_col_ge _ _ _ hw hge (by simpa using hlen),
      volume_MA_col_ge _ _ _ hw hge hlen]
    have hsum : ∀ i ∈ Finset.range w,
        (vs.set t x).getD (t - w + i) 0 = vs.getD (t - w + i) 0 := by
      intro i hi
      have hi' : i < w := Finset.mem_range.mp hi
      exact getD_set_ne vs t (t - w + i) x 0 (by omega)
    rw [Finset.sum_congr rfl hsum]

/-- The `Volume_MA` field of row `t` of the first stage's output is exactly
`volume_MA_col` of the volume column. -/
theorem vmc_MA (df : List ARow) (l t : ℕ) (ht : t < df.length) :
    ((calculate_volume_metrics df l)[t]?).map ARow.Volume_MA =
      some (volume_MA_col (df.map (fun r => r.volume)) l t) := by
  simp [calculate_volume_metrics, mapFrom_getElem?, List.getElem?_eq_getElem ht]

/-- C1: for every input series and positive lookback, the volume baseline
`Volume_MA` at row `t` is undefined when fewer than `lookback` prior rows
exist, equals the arithmetic mean of the volumes at rows
`t - lookback .. t - 1` (strictly prior rows only) when `lookback ≤ t`, and
is unchanged by any replacement of row `t` itself — in particular by
perturbing row `t`'s volume. -/
theorem c1_volume_baseline (df : List ARow) (l t : ℕ) (hl : 0 < l)
    (ht : t < df.length) :
    (t < l → ((calculate_volume_metrics df l)[t]?).map ARow.Volume_MA = some none) ∧
    (l ≤ t → ((calculate_volume_metrics df l)[t]?).map ARow.Volume_MA =
      some (some ((∑ i ∈ Finset.range l,
        (df.map (fun r => r.volume)).getD (t - l + i) 0) / (l : ℚ)))) ∧
    (∀ r' : ARow,
      ((calculate_volume_metrics (df.set t r') l)[t]?).map ARow.Volume_MA =
        ((calculate_volume_metrics df l)[t]?).map ARow.Volume_MA) := by
  have hlen : t ≤ (df.map (fun r => r.volume)).length := by
    rw [List.length_map]; omega
  refine ⟨?_, ?_, ?_⟩
  · intro hlt
    rw [vmc_MA df l t ht, volume_MA_col_lt _ _ _ hlt]
  · intro hge
    rw [vmc_MA df l t ht, volume_MA_col_ge _ _ _ hl hge hlen]
  · intro r'
    have ht' : t < (df.set t r').length := by
      rw [List.length_set]; exact ht
    rw [vmc_MA _ l t ht', vmc_MA df l t ht]
    have hmapset : (df.set t r').map (fun r => r.volume) =
        (df.map (fun r => r.volume)).set t r'.volume := List.map_set
    rw [hmapset, volume_MA_col_set _ _ _ _ hl hlen]

theorem c1_volume_baseline_witness :
    ((calculate_volume_metrics wdf2 1)[1]?).map ARow.Volume_MA =
      some (some ((∑ i ∈ Finset.range 1,
        (wdf2.map (fun r => r.volume)).getD (1 - 1 + i) 0) / ((1 : ℕ) : ℚ))) :=
  (c1_volume_baseline wdf2 1 1 (by decide) (by decide)).2.1 (by decide)

/-- `series > thr` is `true` exactly on defined values strictly above the
threshold. -/
theorem optGT_eq_true (o : Option ℚ) (thr : ℚ) :
    optGT o thr = true ↔ ∃ x, o = some x ∧ thr < x := by
  cases o <;> simp [optGT]

/-- C2: a row of the classifier's output is flagged iff both its volume
ratio and its price change are defined and strictly above `1 + volume
threshold` resp. the price threshold; a ratio exactly at the boundary is not
flagged, and an undefined operand yields `false`, never `true`. -/
theorem c2_breakout_classifier (df : List ARow) (vth pth : ℚ) (t : ℕ) (r : ARow)
    (hr : (identify_breakout_signals df vth pth)[t]? = some r) :
    (r.Is_Breakout = true ↔ ∃ q p : ℚ, r.Volume_Ratio = some q ∧
      r.Price_Change_Pct = some p ∧ 1 + vth < q ∧ pth < p) ∧
    (r.Volume_Ratio = some (1 + vth) → r.Is_Breakout = false) ∧
    ((r.Volume_Ratio = none ∨ r.Price_Change_Pct = none) → r.Is_Breakout = false) := by
  rw [identify_breakout_signals, List.getElem?_map] at hr
  obtain ⟨r0, hr0, rfl⟩ := Option.map_eq_some'.mp hr
  refine ⟨?_, ?_, ?_⟩
  · show (optGT r0.Volume_Ratio (1 + vth) && optGT r0.Price_Change_Pct pth) = true ↔ _
    rw [Bool.and_eq_true, optGT_eq_true, optGT_eq_true]
    constructor
    · rintro ⟨⟨q, hq, hq2⟩, ⟨p, hp, hp2⟩⟩
      exact ⟨q, p, hq, hp, hq2, hp2⟩
    · rintro ⟨q, p, hq, hp, hq2, hp2⟩
      exact ⟨⟨q, hq, hq2⟩, ⟨p, hp, hp2⟩⟩
  · intro hbnd
    show (optGT r0.Volume_Ratio (1 + vth) && optGT r0.Price_Change_Pct pth) = false
    have : r0.Volume_Ratio = some (1 + vth) := hbnd
    simp [this, optGT]
  · intro hun
    show (optGT r0.Volume_Ratio (1 + vth) && optGT r0.Price_Change_Pct pth) = false
    rcases hun with hun | hun
    · have : r0.Volume_Ratio = none := hun
      simp [this, optGT]
    · have : r0.Price_Change_Pct = none := hun
      simp [this, optGT]

theorem c2_breakout_classifier_witness :
    (identify_breakout_signals [mkRow 0 100 7] 2 2)[0]? = some (mkRow 0 100 7) ∧
    (mkRow 0 100 7).Is_Breakout = false :=
  ⟨by decide,
    (c2_breakout_classifier [mkRow 0 100 7] 2 2 0 (mkRow 0 100 7) (by decide)).2.2
      (Or.inl (by decide))⟩


/-- C6: in the first stage's output, the volume ratio is `Volume / Volume_MA`
when the baseline is defined and nonzero, and is forced to undefined — the
infinities and `NaN` a float division can produce are all replaced — when the
baseline is undefined or zero. -/
theorem c6_volume_ratio (df : List ARow) (l t : ℕ) (r : ARow)
    (hr : (calculate_volume_metrics df l)[t]? = some r) :
    (r.Volume_MA = none → r.Volume_Ratio = none) ∧
    (r.Volume_MA = some 0 → r.Volume_Ratio = none) ∧
    (∀ m : ℚ, r.Volume_MA = some m → m ≠ 0 →
      r.Volume_Ratio = some (r.volume / m)) := by
  rw [calculate_volume_metrics] at hr
  rw [mapFrom_getElem?] at hr
  obtain ⟨r0, hr0, hfr⟩ := Option.map_eq_some'.mp hr
  have hMA : r.Volume_MA = volume_MA_col (df.map (fun x => x.volume)) l (0 + t) := by
    rw [← hfr]
  have hvol : r.volume = r0.volume := by
    rw [← hfr]
  rcases hma : volume_MA_col (df.map (fun x => x.volume)) l (0 + t) with _ | m
  · have hMA' : r.Volume_MA = none := hMA.trans hma
    have hVR : r.Volume_Ratio = none := by
      rw [← hfr]
      show (match volume_MA_col (df.map (fun x => x.volume)) l (0 + t) with
        | none => none
        | some m => replaceInfNan (fdivFV r0.volume m)) = none
      rw [hma]
    refine ⟨fun _ => hVR, fun hz => hVR, fun m' hm' _ => ?_⟩
    exact absurd (hMA'.symm.trans hm') (by simp)
  · have hMA' : r.Volume_MA = some m := hMA.trans hma
    have hVR : r.Volume_Ratio = replaceInfNan (fdivFV r0.volume m) := by
      rw [← hfr]
      show (match volume_MA_col (df.map (fun x => x.volume)) l (0 + t) with
        | none => none
        | some m => replaceInfNan (fdivFV r0.volume m)) = _
      rw [hma]
    refine ⟨fun hn => ?_, fun hz => ?_, fun m' hm' hne => ?_⟩
    · exact absurd (hMA'.symm.trans hn) (by simp)
    · have hmz : m = 0 := Option.some_inj.mp (hMA'.symm.trans hz)
      subst hmz
      rw [hVR]
      unfold fdivFV
      rw [if_pos rfl]
      split_ifs <;> rfl
    · have hmm : m = m' := Option.some_inj.mp (hMA'.symm.trans hm')
      subst hmm
      rw [hVR, hvol]
      unfold fdivFV
      rw [if_neg hne]
      rfl

theorem c6_volume_ratio_witness :
    (calculate_volume_metrics wdf2 1)[1]? = some w1 ∧
    w1.Volume_Ratio = some (w1.volume / 7) :=
  have hw : (calculate_volume_metrics wdf2 1)[1]? = some w1 := by
    norm_num [calculate_volume_metrics, mapFrom, volume_MA_col, rolling_mean,
      fdivFV, replaceInfNan, wdf2, mkRow, w1]
  ⟨hw, (c6_volume_ratio wdf2 1 1 w1 hw).2.2 7 (by norm_num [w1]) (by norm_num)⟩

/-! Frame and characterization lemmas for the forward-return loop. -/

theorem processDay_length (h : ℕ) (df : List ARow) (d : ℕ) :
    (processDay h df d).length = df.length := by
  unfold processDay
  rcases hd : df[d]? with _ | e
  · rfl
  · rcases hx : df[d + h]? with _ | x
    · rfl
    · exact List.length_set df d (writeFR e x)

theorem processDay_getElem_ne (h : ℕ) (df : List ARow) (d t : ℕ) (hne : d ≠ t) :
    (processDay h df d)[t]? = df[t]? := by
  unfold processDay
  rcases hd : df[d]? with _ | e
  · rfl
  · rcases hx : df[d + h]? with _ | x
    · rfl
    · exact List.getElem?_set_ne hne

/-- `clearFR` absorbs a `writeFR`: the loop body touches only the three
forward-return columns. -/
theorem clearFR_writeFR (e x : ARow) : clearFR (writeFR e x) = clearFR e := rfl

theorem clearFR_clearFR (r : ARow) : clearFR (clearFR r) = clearFR r := rfl

theorem processDay_map_clearFR (h : ℕ) (df : List ARow) (d : ℕ) :
    (processDay h df d).map clearFR = df.map clearFR := by
  unfold processDay
  rcases hd : df[d]? with _ | e
  · rfl
  · rcases hx : df[d + h]? with _ | x
    · rfl
    · rw [List.map_set]
      apply List.ext_getElem?
      intro n
      rcases eq_or_ne d n with rfl | hne
      · have hdlen : d < df.length := (List.getElem?_eq_some_iff.mp hd).1
        rw [List.getElem?_set_self (by simpa using hdlen), List.getElem?_map, hd]
        rfl
      · exact List.getElem?_set_ne hne

/-- `writeFR` reads only the close and date of the exit row. -/
theorem writeFR_congr (e x y : ARow) (hc : clearFR x = clearFR y) :
    writeFR e x = writeFR e y := by
  have hclose : x.close = y.close := by
    have h1 := congrArg (fun r : ARow => r.close) hc
    simpa [clearFR] using h1
  have hdate : x.date = y.date := by
    have h1 := congrArg (fun r : ARow => r.date) hc
    simpa [clearFR] using h1
  unfold writeFR
  rw [hclose, hdate]

/-- `frUpdate` depends on the working table only through the value at `t` and
the `clearFR`-projection of the table. -/
theorem frUpdate_congr (h t : ℕ) (d0 d1 : List ARow)
    (h1 : d1[t]? = d0[t]?) (h2 : d1.map clearFR = d0.map clearFR) :
    frUpdate h d1 t = frUpdate h d0 t := by
  have h3 : (d1[t + h]?).map clearFR = (d0[t + h]?).map clearFR := by
    rw [← List.getElem?_map, ← List.getElem?_map, h2]
  unfold frUpdate
  rw [h1]
  rcases he : d0[t]? with _ | e
  · rcases hx1 : d1[t + h]? with _ | x1 <;> rcases hx0 : d0[t + h]? with _ | x0 <;> rfl
  · rcases hx0 : d0[t + h]? with _ | x0
    · have hx1 : d1[t + h]? = none := by
        rw [hx0] at h3
        simp only [Option.map_none'] at h3
        exact Option.map_eq_none'.mp h3
      rw [hx1]
    · have : ∃ x1, d1[t + h]? = some x1 ∧ clearFR x1 = clearFR x0 := by
        rw [hx0] at h3
        rcases hx1 : d1[t + h]? with _ | x1
        · rw [hx1] at h3
          simp at h3
        · rw [hx1] at h3
          simp only [Option.map_some'] at h3
          exact ⟨x1, rfl, Option.some_inj.mp h3⟩
      obtain ⟨x1, hx1, hcl⟩ := this
      rw [hx1]
      show some (writeFR e x1) = some (writeFR e x0)
      rw [writeFR_congr e x1 x0 hcl]

/-- One loop iteration at `d` leaves row `d` holding exactly `frUpdate`'s
value. -/
theorem processDay_getElem_self (h : ℕ) (df : List ARow) (d : ℕ) :
    (processDay h df d)[d]? = frUpdate h df d := by
  unfold processDay frUpdate
  rcases hd : df[d]? with _ | e <;> rcases hx : df[d + h]? with _ | x
  · exact hd
  · exact hd
  · exact hd
  · have hdlen : d < df.length := (List.getElem?_eq_some_iff.mp hd).1
    exact List.getElem?_set_self (by simpa using hdlen)

theorem foldPD_length (h : ℕ) (days : List ℕ) (d0 : List ARow) :
    (days.foldl (processDay h) d0).length = d0.length := by
  induction days generalizing d0 with
  | nil => rfl
  | cons d rest ih => rw [List.foldl_cons, ih, processDay_length]

theorem foldPD_map_clearFR (h : ℕ) (days : List ℕ) (d0 : List ARow) :
    (days.foldl (processDay h) d0).map clearFR = d0.map clearFR := by
  induction days generalizing d0 with
  | nil => rfl
  | cons d rest ih => rw [List.foldl_cons, ih, processDay_map_clearFR]

theorem foldPD_getElem_not_mem (h : ℕ) (days : List ℕ) (d0 : List ARow) (t : ℕ)
    (hnm : t ∉ days) :
    (days.foldl (processDay h) d0)[t]? = d0[t]? := by
  induction days generalizing d0 with
  | nil => rfl
  | cons d rest ih =>
    rw [List.foldl_cons, ih _ (fun hmem => hnm (List.mem_cons_of_mem d hmem)),
      processDay_getElem_ne h d0 d t (fun hdt => hnm (hdt ▸ List.mem_cons_self d rest))]

theorem foldPD_getElem_mem (h : ℕ) :
    ∀ (days : List ℕ) (d0 : List ARow) (t : ℕ), days.Nodup → t ∈ days →
      (days.foldl (processDay h) d0)[t]? = frUpdate h d0 t := by
  intro days
  induction days with
  | nil => intro d0 t _ hmem; cases hmem
  | cons d rest ih =>
    intro d0 t hnd hmem
    have hdnr : d ∉ rest := (List.nodup_cons.mp hnd).1
    have hnd' : rest.Nodup := (List.nodup_cons.mp hnd).2
    rw [List.foldl_cons]
    rcases List.mem_cons.mp hmem with rfl | hmemr
    · rw [foldPD_getElem_not_mem h rest (processDay h d0 t) t hdnr]
      exact processDay_getElem_self h d0 t
    · have hdt : d ≠ t := fun hdt => hdnr (hdt ▸ hmemr)
      rw [ih (processDay h d0 d) t hnd' hmemr]
      exact frUpdate_congr h t d0 (processDay h d0 d)
        (processDay_getElem_ne h d0 d t hdt) (processDay_map_clearFR h d0 d)

theorem breakoutIdxs_nodup (df : List ARow) : (breakoutIdxs df).Nodup :=
  (List.nodup_range df.length).filter _

theorem mem_breakoutIdxs (df : List ARow) (t : ℕ) (r : ARow) (hr : df[t]? = some r) :
    t ∈ breakoutIdxs df ↔ r.Is_Breakout = true := by
  unfold breakoutIdxs
  rw [List.mem_filter, List.mem_range]
  have ht : t < df.length := (List.getElem?_eq_some_iff.mp hr).1
  rw [hr]
  simp [ht]

/-- C3: for a flagged row with an exit row exactly `holding_period` positions
later, the output row records that row's date and close and the forward
return `(exit_close - entry_close) / entry_close * 100`; when no such row
exists, or the row is not flagged, all three forward-return fields stay
undefined. -/
theorem c3_forward_returns (df : List ARow) (h t : ℕ) (r : ARow)
    (hr : df[t]? = some r) :
    ∃ r', (calculate_forward_returns df h)[t]? = some r' ∧
      (∀ x, r.Is_Breakout = true → df[t + h]? = some x →
        r'.Exit_Date = some x.date ∧ r'.Exit_Price = some x.close ∧
        r'.Forward_Returns = some ((x.close - r.close) / r.close * 100)) ∧
      ((r.Is_Breakout = false ∨ df.length ≤ t + h) →
        r'.Exit_Date = none ∧ r'.Exit_Price = none ∧ r'.Forward_Returns = none) := by
  have hd0t : (df.map clearFR)[t]? = some (clearFR r) := by
    rw [List.getElem?_map, hr]
    rfl
  have hd0x : (df.map clearFR)[t + h]? = (df[t + h]?).map clearFR :=
    List.getElem?_map clearFR df (t + h)
  rcases hb : r.Is_Breakout with _ | _
  · -- not flagged: the loop never visits row t
    have hnm : t ∉ breakoutIdxs df := fun hm => by
      rw [(mem_breakoutIdxs df t r hr).mp hm] at hb
      cases hb
    refine ⟨clearFR r, ?_, ?_, ?_⟩
    · unfold calculate_forward_returns
      rw [foldPD_getElem_not_mem h _ _ t hnm, hd0t]
    · intro x hb' _
      cases hb'
    · intro _
      exact ⟨rfl, rfl, rfl⟩
  · -- flagged: the loop writes frUpdate's value
    have hmem : t ∈ breakoutIdxs df := (mem_breakoutIdxs df t r hr).mpr hb
    have hval : (calculate_forward_returns df h)[t]? = frUpdate h (df.map clearFR) t := by
      unfold calculate_forward_returns
      exact foldPD_getElem_mem h (breakoutIdxs df) _ t (breakoutIdxs_nodup df) hmem
    rcases hx : df[t + h]? with _ | x0
    · -- exit position out of bounds
      have hfru : frUpdate h (df.map clearFR) t = some (clearFR r) := by
        unfold frUpdate
        rw [hd0t, hd0x, hx]
        rfl
      refine ⟨clearFR r, hval.trans hfru, ?_, ?_⟩
      · intro x _ hx'
        cases hx'
      · intro _
        exact ⟨rfl, rfl, rfl⟩
    · -- exit position in bounds
      have hfru : frUpdate h (df.map clearFR) t =
          some (writeFR (clearFR r) (clearFR x0)) := by
        unfold frUpdate
        rw [hd0t, hd0x, hx]
        rfl
      refine ⟨writeFR (clearFR r) (clearFR x0), hval.trans hfru, ?_, ?_⟩
      · intro x _ hx'
        have hxx : x0 = x := Option.some_inj.mp hx'
        subst hxx
        exact ⟨rfl, rfl, rfl⟩
      · intro hcontra
        rcases hcontra with hb' | hlen
        · cases hb'
        · have : t + h < df.length := (List.getElem?_eq_some_iff.mp hx).1
          omega

theorem c3_forward_returns_witness :
    ∃ r', (calculate_forward_returns [brRow, mkRow 9 50 5] 1)[0]? = some r' ∧
      r'.Exit_Date = some 9 ∧ r'.Exit_Price = some 50 ∧
      r'.Forward_Returns = some ((50 - brRow.close) / brRow.close * 100) := by
  obtain ⟨r', h1, h2, _⟩ :=
    c3_forward_returns [brRow, mkRow 9 50 5] 1 0 brRow (by decide)
  obtain ⟨he1, he2, he3⟩ := h2 (mkRow 9 50 5) (by decide) (by decide)
  exact ⟨r', h1, he1, he2, he3⟩

/-- C9: each transformation stage is a pure function that preserves the row
count and every pre-existing column, writing only its own columns: erasing
exactly the columns a stage owns from its output gives back the input with
those columns erased. -/
theorem c9_stages_frame (df : List ARow) (l : ℕ) (vth pth : ℚ) (h : ℕ) :
    ((calculate_volume_metrics df l).map eraseVolumeCols = df.map eraseVolumeCols ∧
      (calculate_volume_metrics df l).length = df.length) ∧
    ((calculate_price_changes df).map erasePriceCol = df.map erasePriceCol ∧
      (calculate_price_changes df).length = df.length) ∧
    ((identify_breakout_signals df vth pth).map eraseBreakoutCol =
        df.map eraseBreakoutCol ∧
      (identify_breakout_signals df vth pth).length = df.length) ∧
    ((calculate_forward_returns df h).map clearFR = df.map clearFR ∧
      (calculate_forward_returns df h).length = df.length) := by
  refine ⟨⟨?_, ?_⟩, ⟨?_, ?_⟩, ⟨?_, ?_⟩, ⟨?_, ?_⟩⟩
  · rw [calculate_volume_metrics, map_mapFrom]
    exact mapFrom_const eraseVolumeCols 0 df
  · rw [calculate_volume_metrics, mapFrom_length]
  · rw [calculate_price_changes, map_mapFrom]
    exact mapFrom_const erasePriceCol 0 df
  · rw [calculate_price_changes, mapFrom_length]
  · rw [identify_breakout_signals, List.map_map]
    rfl
  · rw [identify_breakout_signals, List.length_map]
  · rw [calculate_forward_returns, foldPD_map_clearFR, List.map_map]
    rfl
  · rw [calculate_forward_returns, foldPD_length, List.length_map]

/-- In the classifier's output, a flagged row has both operands defined. -/
theorem identify_defined (df : List ARow) (vth pth : ℚ) (r : ARow)
    (hmem : r ∈ identify_breakout_signals df vth pth) (hb : r.Is_Breakout = true) :
    r.Volume_Ratio.isSome = true ∧ r.Price_Change_Pct.isSome = true := by
  unfold identify_breakout_signals at hmem
  obtain ⟨r0, _, rfl⟩ := List.mem_map.mp hmem
  have hb' : (optGT r0.Volume_Ratio (1 + vth) && optGT r0.Price_Change_Pct pth) = true := hb
  rw [Bool.and_eq_true] at hb'
  obtain ⟨q, hq, _⟩ := (optGT_eq_true _ _).mp hb'.1
  obtain ⟨p, hp, _⟩ := (optGT_eq_true _ _).mp hb'.2
  constructor
  · show r0.Volume_Ratio.isSome = true
    rw [hq]
    rfl
  · show r0.Price_Change_Pct.isSome = true
    rw [hp]
    rfl

/-- Every row of the forward-return stage's output is a row of the input with
only the three forward-return columns changed. -/
theorem fwd_mem_clearFR (df : List ARow) (h : ℕ) (r : ARow)
    (hmem : r ∈ calculate_forward_returns df h) :
    ∃ r0 ∈ df, clearFR r = clearFR r0 := by
  have hmap : (calculate_forward_returns df h).map clearFR = df.map clearFR := by
    rw [calculate_forward_returns, foldPD_map_clearFR, List.map_map]
    rfl
  have hmm : clearFR r ∈ (calculate_forward_returns df h).map clearFR :=
    List.mem_map_of_mem clearFR hmem
  rw [hmap] at hmm
  obtain ⟨r0, hr0, heq⟩ := List.mem_map.mp hmm
  exact ⟨r0, hr0, heq.symm⟩

/-- In the full pipeline's output, a flagged row has defined volume ratio and
price change (the classifier only ever flags rows where both are defined, and
the forward-return stage does not touch those columns). -/
theorem pipeline_breakout_defined (df : List ARow) (l : ℕ) (vth pth : ℚ) (h : ℕ)
    (r : ARow) (hmem : r ∈ run_pipeline df l vth pth h) (hb : r.Is_Breakout = true) :
    r.Volume_Ratio.isSome = true ∧ r.Price_Change_Pct.isSome = true := by
  unfold run_pipeline at hmem
  obtain ⟨r0, hr0, heq⟩ := fwd_mem_clearFR _ h r hmem
  have hvr : r.Volume_Ratio = r0.Volume_Ratio := by
    have h1 := congrArg (fun s : ARow => s.Volume_Ratio) heq
    simpa [clearFR] using h1
  have hpc : r.Price_Change_Pct = r0.Price_Change_Pct := by
    have h1 := congrArg (fun s : ARow => s.Price_Change_Pct) heq
    simpa [clearFR] using h1
  have hbk : r.Is_Breakout = r0.Is_Breakout := by
    have h1 := congrArg (fun s : ARow => s.Is_Breakout) heq
    simpa [clearFR] using h1
  have hdef := identify_defined _ vth pth r0 hr0 (hbk.symm.trans hb)
  rw [hvr, hpc]
  exact hdef

/-- The summary's count field is always the size of the filtered signal set,
in both the placeholder and the computed branch. -/
theorem summary_count (df : List ARow) :
    (generate_breakout_summary df).Total_Breakout_Days =
      toString (breakout_data df).length := by
  unfold generate_breakout_summary
  by_cases hbd : (breakout_data df).isEmpty
  · rw [if_pos hbd]
    have hlen : (breakout_data df).length = 0 := by
      rcases hbde : breakout_data df with _ | ⟨a, as⟩
      · rfl
      · rw [hbde] at hbd
        cases hbd
    rw [hlen]
    rfl
  · rw [if_neg hbd]

/-- C4: on a fully evaluated series, the Signal Report filters to exactly the
same rows as the Summary Aggregator, and the summary's
`Total_Breakout_Days` equals the report's row count. -/
theorem c4_report_matches_summary (df : List ARow) (l : ℕ) (vth pth : ℚ) (h : ℕ) :
    (generate_signals_report (run_pipeline df l vth pth h)).2 =
      breakout_data (run_pipeline df l vth pth h) ∧
    (generate_breakout_summary (run_pipeline df l vth pth h)).Total_Breakout_Days =
      toString (generate_signals_report (run_pipeline df l vth pth h)).2.length := by
  have hsets : (generate_signals_report (run_pipeline df l vth pth h)).2 =
      breakout_data (run_pipeline df l vth pth h) := by
    show ((run_pipeline df l vth pth h).filter (fun r => r.Is_Breakout)).filter
        (fun r => r.Forward_Returns.isSome) = _
    unfold breakout_data
    apply List.filter_congr
    intro r hmem
    have hflag : r.Is_Breakout = true := (List.mem_filter.mp hmem).2
    have hr' : r ∈ run_pipeline df l vth pth h := (List.mem_filter.mp hmem).1
    obtain ⟨h1, h2⟩ := pipeline_breakout_defined df l vth pth h r hr' hflag
    rw [h1, h2]
    simp
  refine ⟨hsets, ?_⟩
  rw [summary_count, hsets]

/-- C5: when the filtered signal set is empty, the Summary Aggregator returns
the fully defined placeholder record — count, percentage and ratio fields all
zero strings, date fields undefined — rather than failing. -/
theorem c5_empty_placeholder (df : List ARow) (hempty : breakout_data df = []) :
    generate_breakout_summary df =
      { Total_Breakout_Days := "0", Average_Return := "0.00%", Win_Rate := "0.00%",
        Best_Trade := "0.00%", Worst_Trade := "0.00%", Avg_Win_Size := "0.00%",
        Avg_Loss_Size := "0.00%", Avg_Days_Between_Signals := "N/A",
        Avg_Volume_Ratio := "0.00x", Max_Volume_Ratio := "0.00x",
        Min_Volume_Ratio := "0.00x", Avg_Price_Change := "0.00%",
        Max_Price_Change := "0.00%", Min_Price_Change := "0.00%",
        First_Signal_Date := none, Last_Signal_Date := none } := by
  unfold generate_breakout_summary
  rw [if_pos (by rw [hempty]; rfl)]

theorem c5_empty_placeholder_witness :
    generate_breakout_summary wdf2 =
      { Total_Breakout_Days := "0", Average_Return := "0.00%", Win_Rate := "0.00%",
        Best_Trade := "0.00%", Worst_Trade := "0.00%", Avg_Win_Size := "0.00%",
        Avg_Loss_Size := "0.00%", Avg_Days_Between_Signals := "N/A",
        Avg_Volume_Ratio := "0.00x", Max_Volume_Ratio := "0.00x",
        Min_Volume_Ratio := "0.00x", Avg_Price_Change := "0.00%",
        Max_Price_Change := "0.00%", Min_Price_Change := "0.00%",
        First_Signal_Date := none, Last_Signal_Date := none } :=
  c5_empty_placeholder wdf2 (by decide)

/-- The `Avg_Days_Between_Signals` field in the computed branch. -/
theorem summary_avg_days (df : List ARow) (hbd : ¬(breakout_data df).isEmpty = true) :
    (generate_breakout_summary df).Avg_Days_Between_Signals =
      (if 1 < (breakout_data df).length
        then toString (pyInt (meanGapDays df)) else "N/A") := by
  unfold generate_breakout_summary
  rw [if_neg hbd]

/-- The `Avg_Days_Between_Signals` field in the placeholder branch. -/
theorem summary_avg_days_empty (df : List ARow) (hbd : (breakout_data df).isEmpty = true) :
    (generate_breakout_summary df).Avg_Days_Between_Signals = "N/A" := by
  unfold generate_breakout_summary
  rw [if_pos hbd]

/-- C7 (amended): with at least two qualifying signals,
`Avg_Days_Between_Signals` is the mean calendar-day gap truncated to a whole
number of days (Python `int()`), rendered in decimal; with fewer than two
signals it is the string "N/A". -/
theorem c7_avg_days_truncated (df : List ARow) :
    ((breakout_data df).length ≤ 1 →
      (generate_breakout_summary df).Avg_Days_Between_Signals = "N/A") ∧
    (2 ≤ (breakout_data df).length →
      (generate_breakout_summary df).Avg_Days_Between_Signals =
        toString (pyInt (meanGapDays df))) := by
  by_cases hbd : (breakout_data df).isEmpty = true
  · have hlen : (breakout_data df).length = 0 := by
      rcases hbde : breakout_data df with _ | ⟨a, as⟩
      · rfl
      · rw [hbde] at hbd
        cases hbd
    exact ⟨fun _ => summary_avg_days_empty df hbd,
      fun h2 => absurd (hlen ▸ h2) (by omega)⟩
  · have hfield := summary_avg_days df hbd
    constructor
    · intro hle
      rw [hfield, if_neg (by omega)]
    · intro hge
      rw [hfield, if_pos (by omega)]

theorem c7_avg_days_truncated_witness :
    (generate_breakout_summary wdf2).Avg_Days_Between_Signals = "N/A" ∧
    (generate_breakout_summary (run_pipeline cdf5 1 2 2 1)).Avg_Days_Between_Signals =
      toString (pyInt (meanGapDays (run_pipeline cdf5 1 2 2 1))) :=
  ⟨(c7_avg_days_truncated wdf2).1 (by decide),
    (c7_avg_days_truncated (run_pipeline cdf5 1 2 2 1)).2 (by
      norm_num [run_pipeline, calculate_volume_metrics, calculate_price_changes,
        identify_breakout_signals, calculate_forward_returns, breakoutIdxs, processDay,
        mapFrom, volume_MA_col, rolling_mean, optGT, clearFR, writeFR, breakout_data,
        fdivFV, replaceInfNan, cdf5, mkRow, List.range_succ, List.filter, List.foldl])⟩

/-- C7 (counterexample): on a concrete series with qualifying signals at
dates 1, 2 and 4, the exact mean gap is 3/2 days, but the summary field is
the string "1" — the truncation, not the mean, so the field does not equal
the mean calendar-day gap. -/
theorem c7_counterexample :
    (generate_breakout_summary (run_pipeline cdf5 1 2 2 1)).Avg_Days_Between_Signals
      = "1" ∧
    meanGapDays (run_pipeline cdf5 1 2 2 1) = 3 / 2 ∧ ((3 : ℚ) / 2 ≠ 1) := by
  refine ⟨?_, ?_, by norm_num⟩
  · norm_num [run_pipeline, calculate_volume_metrics, calculate_price_changes,
      identify_breakout_signals, calculate_forward_returns, breakoutIdxs, processDay,
      mapFrom, volume_MA_col, rolling_mean, optGT, clearFR, writeFR,
      generate_breakout_summary, breakout_data, frVal, winning_returns, losing_returns,
      safe_mean, diffs, meanGapDays, pyInt, qmax, qmin, zmin, zmax, formatFixed2,
      format_with_sign, roundHalfEven, twoDigits, fdivFV, replaceInfNan, cdf5, mkRow,
      List.range_succ, List.filter, List.foldl]
    have h2 : ⌊(3 / 2 : ℚ)⌋ = 1 := by norm_num [Int.floor_eq_iff]
    simp only [List.cons_ne_nil, if_false, ite_false]
    rw [if_neg (by norm_num : ¬(3 / 2 : ℚ) < 0), h2]
    rfl
  · norm_num [run_pipeline, calculate_volume_metrics, calculate_price_changes,
      identify_breakout_signals, calculate_forward_returns, breakoutIdxs, processDay,
      mapFrom, volume_MA_col, rolling_mean, optGT, clearFR, writeFR, breakout_data,
      safe_mean, diffs, meanGapDays, fdivFV, replaceInfNan, cdf5, mkRow,
      List.range_succ, List.filter, List.foldl]
    simp

theorem format_with_sign_zero : format_with_sign 0 = "0.00%" := by
  norm_num [format_with_sign, formatFixed2, roundHalfEven, twoDigits]
  rfl

/-- The `Avg_Win_Size` field in the computed branch. -/
theorem summary_avg_win (df : List ARow) (hbd : ¬(breakout_data df).isEmpty = true) :
    (generate_breakout_summary df).Avg_Win_Size =
      format_with_sign (safe_mean (winning_returns df)) := by
  unfold generate_breakout_summary
  rw [if_neg hbd]

/-- The `Avg_Loss_Size` field in the computed branch. -/
theorem summary_avg_loss (df : List ARow) (hbd : ¬(breakout_data df).isEmpty = true) :
    (generate_breakout_summary df).Avg_Loss_Size =
      format_with_sign (safe_mean (losing_returns df)) := by
  unfold generate_breakout_summary
  rw [if_neg hbd]

/-- C10: the sign-formatting helper prepends a plus sign only to strictly
positive values; zero renders as the unsigned "0.00%"; negative values carry
a minus sign from the number itself; and on a nonempty signal set whose
winning (resp. losing) subset is empty, `Avg_Win_Size` (resp.
`Avg_Loss_Size`) is the unsigned "0.00%". -/
theorem c10_format_with_sign (df : List ARow) (v : ℚ)
    (h1 : breakout_data df ≠ []) :
    format_with_sign 0 = "0.00%" ∧
    (0 < v → format_with_sign v = "+" ++ formatFixed2 v ++ "%") ∧
    (v ≤ 0 → format_with_sign v = formatFixed2 v ++ "%") ∧
    (v < 0 → ∃ s : String, formatFixed2 v = "-" ++ s) ∧
    (winning_returns df = [] →
      (generate_breakout_summary df).Avg_Win_Size = "0.00%") ∧
    (losing_returns df = [] →
      (generate_breakout_summary df).Avg_Loss_Size = "0.00%") := by
  have hbd : ¬(breakout_data df).isEmpty = true := by
    rcases hbde : breakout_data df with _ | ⟨a, as⟩
    · exact absurd hbde h1
    · intro hco
      simp at hco
  have hmean0 : safe_mean ([] : List ℚ) = 0 := by simp [safe_mean]
  refine ⟨format_with_sign_zero, ?_, ?_, ?_, ?_, ?_⟩
  · intro hv
    unfold format_with_sign
    rw [if_pos hv]
  · intro hv
    unfold format_with_sign
    rw [if_neg (not_lt.mpr hv)]
    rfl
  · intro hv
    refine ⟨toString ((roundHalfEven (|v| * 100)).toNat / 100) ++ "." ++
        twoDigits ((roundHalfEven (|v| * 100)).toNat % 100), ?_⟩
    show (if v < 0 then "-" else "") ++ toString ((roundHalfEven (|v| * 100)).toNat / 100) ++
      "." ++ twoDigits ((roundHalfEven (|v| * 100)).toNat % 100) = _
    rw [if_pos hv]
    simp [String.append_assoc]
  · intro hw
    rw [summary_avg_win df hbd, hw, hmean0, format_with_sign_zero]
  · intro hl
    rw [summary_avg_loss df hbd, hl, hmean0, format_with_sign_zero]

theorem c10_format_with_sign_witness :
    format_with_sign 0 = "0.00%" ∧
    (generate_breakout_summary [losingRow]).Avg_Win_Size = "0.00%" :=
  ⟨(c10_format_with_sign [losingRow] (-1) (by decide)).1,
    (c10_format_with_sign [losingRow] (-1) (by decide)).2.2.2.2.1 (by decide)⟩

/-- C8 (code-bug exhibit): on a series whose dates are strictly decreasing —
a malformed input by the spec's precondition — no stage fails fast: the whole
pipeline runs to completion and produces a silently wrong summary, here a
negative "-3" mean gap between signal dates. -/
theorem c8_nonmonotonic_no_failure :
    ¬ List.Chain' (fun a b : ℤ => a < b) (badDf.map (fun r => r.date)) ∧
    (generate_breakout_summary (run_pipeline badDf 1 2 2 1)).Total_Breakout_Days = "2" ∧
    (generate_breakout_summary
      (run_pipeline badDf 1 2 2 1)).Avg_Days_Between_Signals = "-3" := by
  refine ⟨by norm_num [badDf, mkRow, List.chain'_cons], ?_, ?_⟩ <;>
    (norm_num [run_pipeline, calculate_volume_metrics, calculate_price_changes,
      identify_breakout_signals, calculate_forward_returns, breakoutIdxs, processDay,
      mapFrom, volume_MA_col, rolling_mean, optGT, clearFR, writeFR,
      generate_breakout_summary, breakout_data, frVal, winning_returns, losing_returns,
      safe_mean, diffs, meanGapDays, pyInt, qmax, qmin, zmin, zmax, formatFixed2,
      format_with_sign, roundHalfEven, twoDigits, fdivFV, replaceInfNan, badDf, mkRow,
      List.range_succ, List.filter, List.foldl]) <;>
    rfl
